import Mathlib

/-! Verification of the Nicholson-Prinz visual-search repository.

Shallow embedding of the two source files
`src/scripts/experiment-1-searchstims/generate_source_data_csv.py` and
`src/searchnets/classes/trainer.py`.

Pandas dataframes are embedded as lists of records, accuracies as exact
rationals, Python exceptions as an `Except` monad with an explicit error
type, and the filesystem reads and writes performed by the aggregation
script as an explicit event trace.  External library calls that the
repository treats as opaque (`searchnets.analysis.searchstims.results_gz_to_df`,
the `nets.*.build` model constructors, the `torch.optim` constructors) are
embedded as abstract environment functions or as inert constructors.
-/

set_option autoImplicit false

attribute [local semireducible] Rat.add Rat.mul Rat.inv Rat.sub

deriving instance DecidableEq for Except

namespace SearchNets

/-- Python exception values that the embedded code can raise. -/
inductive PyError where
  | notADirectoryError (msg : String)
  | valueError (msg : String)
  | unboundLocalError (name : String)
  deriving DecidableEq, Repr

/-! ### Generic list helpers (embedding pandas / numpy primitives) -/

/-- `pandas.Series.unique`: the distinct elements of a list in order of
first appearance. -/
def uniqueList {α : Type} [DecidableEq α] : List α → List α
  | [] => []
  | a :: l => a :: (uniqueList l).filter (fun b => decide (b ≠ a))

theorem mem_uniqueList {α : Type} [DecidableEq α] {a : α} {l : List α} :
    a ∈ uniqueList l ↔ a ∈ l := by
  induction l with
  | nil => simp [uniqueList]
  | cons b l ih =>
    by_cases hab : a = b
    · subst hab; simp [uniqueList]
    · simp [uniqueList, hab, List.mem_filter, ih]

theorem nodup_uniqueList {α : Type} [DecidableEq α] (l : List α) :
    (uniqueList l).Nodup := by
  induction l with
  | nil => simp [uniqueList]
  | cons b l ih =>
    refine List.Nodup.cons ?_ (ih.filter _)
    intro hmem
    have := (List.mem_filter.mp hmem).2
    simp at this

/-- The arithmetic mean of a list of rationals, as computed by
`pandas.core.groupby.agg` with `'mean'` (division by zero yields zero for
the empty list, which never occurs for a nonempty group). -/
def listMean (xs : List ℚ) : ℚ := xs.sum / xs.length

theorem listMean_singleton (x : ℚ) : listMean [x] = x := by
  simp [listMean]

/-- Lexicographic comparison of character lists; this is the order `<`
that Python's `sorted` uses on path strings. -/
def charListLt : List Char → List Char → Bool
  | [], [] => false
  | [], _ :: _ => true
  | _ :: _, [] => false
  | a :: as, b :: bs => decide (a < b) || (a == b && charListLt as bs)

/-- Boolean `≤` on strings derived from `charListLt`. -/
def strLeB (a b : String) : Bool := charListLt a.toList b.toList || a == b

/-- Python's `sorted` applied to a list of path strings (also the ordering
`pandas.groupby` gives its group keys). -/
def sortStrings (l : List String) : List String :=
  l.insertionSort (fun a b => strLeB a b = true)

theorem sortStrings_perm (l : List String) : List.Perm (sortStrings l) l :=
  List.perm_insertionSort _ l

/-- Searches for the first occurrence of `pat` in `s` and returns the
remainder of `s` after that occurrence. -/
def findAfter (pat : List Char) : List Char → Option (List Char)
  | [] => if pat.isEmpty then some [] else none
  | c :: rest =>
    if pat.isPrefixOf (c :: rest) then some ((c :: rest).drop pat.length)
    else findAfter pat rest

/-- Substring containment, embedding Python's `'detect' in str(path)` and
`'CORnet' in net_name`. -/
def containsStr (s pat : String) : Bool :=
  (findAfter pat.toList s.toList).isSome

/-- Whether a path matches the glob pattern `**/*{net_name}*{method}*gz`
built at line 85 of `generate_source_data_csv.py`: the name, then the
method, must occur in order, and the path must end in `gz` after them. -/
def globMatches (net_name method : String) (path : String) : Bool :=
  match findAfter net_name.toList path.toList with
  | none => false
  | some r1 =>
    match findAfter method.toList r1 with
    | none => false
    | some r2 => (String.toList "gz").isSuffixOf r2

/-! ### Data model of `generate_source_data_csv.main` -/

/-- One row of the per-trial results dataframe that
`searchnets.analysis.searchstims.results_gz_to_df` returns: the columns of
`df_all` that the aggregation steps consume. -/
structure Row where
  net_name : String
  stimulus : String
  set_size : Nat
  method : String
  accuracy : ℚ
  deriving DecidableEq, Repr

/-- The grouping key of line 121: `['net_name', 'stimulus', 'set_size']`. -/
def keyOf (r : Row) : String × String × Nat := (r.net_name, r.stimulus, r.set_size)

/-- One row of the grouped summary `df_transfer_acc_mn` (lines 121-122). -/
structure GRow where
  net_name : String
  stimulus : String
  set_size : Nat
  accuracy : ℚ
  deriving DecidableEq, Repr

/-- Lexicographic boolean order on grouping keys; `pandas.groupby` (with its
default `sort=True`) lists group keys in this order. -/
def keyLeB (a b : String × String × Nat) : Bool :=
  if a.1 = b.1 then
    (if a.2.1 = b.2.1 then decide (a.2.2 ≤ b.2.2)
     else charListLt a.2.1.toList b.2.1.toList)
  else charListLt a.1.toList b.1.toList

def sortKeys (l : List (String × String × Nat)) : List (String × String × Nat) :=
  l.insertionSort (fun a b => keyLeB a b = true)

/-- `groupby(['net_name', 'stimulus', 'set_size']).agg({'accuracy': 'mean'})`
followed by `reset_index()`: one output row per distinct key, carrying the
mean accuracy of the rows with that key. -/
def groupMeanAcc (rows : List Row) : List GRow :=
  (sortKeys (uniqueList (rows.map keyOf))).map fun k =>
    ⟨k.1, k.2.1, k.2.2,
      listMean ((rows.filter (fun r => decide (keyOf r = k))).map Row.accuracy)⟩

/-- Lines 120-122: filter `df_all` down to the transfer-method rows and
compute the grouped mean accuracy. -/
def df_transfer_acc_mn (df_all : List Row) : List GRow :=
  groupMeanAcc (df_all.filter (fun r => r.method == "transfer"))

/-- The mean accuracy over transfer-method rows of `df_all` with the given
net name, stimulus and set size. -/
def meanTransferAcc (df_all : List Row) (net stim : String) (ss : Nat) : ℚ :=
  listMean (((df_all.filter (fun r => r.method == "transfer")).filter
    (fun r => r.net_name == net && r.stimulus == stim && r.set_size == ss)).map
      Row.accuracy)

/-! ### The accuracy-difference records loop (lines 128-144) -/

/-- `numpy.ndarray.item()` applied to the values of a one-column selection:
succeeds exactly when the array has a single element, and otherwise raises
`ValueError`. -/
def itemOf (xs : List ℚ) : Except PyError ℚ :=
  match xs with
  | [x] => .ok x
  | _ => .error (.valueError "can only convert an array of size 1 to a Python scalar")

/-- One row of `df_acc_diff` (lines 137-144). -/
structure ARow where
  net_name : String
  stimulus : String
  set_size_1_acc : ℚ
  set_size_8_acc : ℚ
  acc_diff : ℚ
  deriving DecidableEq, Repr

/-- The inner loop over `df_net['stimulus'].unique()` at lines 132-141:
for each stimulus, extract the set-size-1 and set-size-8 accuracies with
`.item()` and record their difference. -/
def recordsForStims (df_net : List GRow) (net : String) :
    List String → Except PyError (List ARow)
  | [] => .ok []
  | stim :: rest =>
    let df_stim := df_net.filter (fun g => g.stimulus == stim)
    match itemOf ((df_stim.filter (fun g => g.set_size == 1)).map GRow.accuracy) with
    | .error e => .error e
    | .ok a1 =>
      match itemOf ((df_stim.filter (fun g => g.set_size == 8)).map GRow.accuracy) with
      | .error e => .error e
      | .ok a8 =>
        match recordsForStims df_net net rest with
        | .error e => .error e
        | .ok more => .ok (⟨net, stim, a1, a8, a1 - a8⟩ :: more)

/-- The outer loop over `df_transfer_acc_mn['net_name'].unique()` at
lines 130-141. -/
def recordsForNets (g : List GRow) : List String → Except PyError (List ARow)
  | [] => .ok []
  | net :: rest =>
    let df_net := g.filter (fun x => x.net_name == net)
    match recordsForStims df_net net (uniqueList (df_net.map GRow.stimulus)) with
    | .error e => .error e
    | .ok recs =>
      match recordsForNets g rest with
      | .error e => .error e
      | .ok more => .ok (recs ++ more)

/-- Lines 128-144: build `df_acc_diff` from the grouped summary table, or
raise the `ValueError` that `.item()` produces when a pair lacks a
set-size-1 or set-size-8 row. -/
def accDiffRecords (g : List GRow) : Except PyError (List ARow) :=
  recordsForNets g (uniqueList (g.map GRow.net_name))

/-! ### The sorted summary tables and the pivot (lines 146-167) -/

/-- One row of `stim_acc_diff_df` (lines 147-149). -/
structure StimRow where
  stimulus : String
  acc_diff : ℚ
  set_size_1_acc : ℚ
  deriving DecidableEq, Repr

/-- One row of `net_acc_diff_df` (lines 152-154). -/
structure NetRow where
  net_name : String
  acc_diff : ℚ
  deriving DecidableEq, Repr

/-- The sort key of line 149, `sort_values(by=['set_size_1_acc', 'acc_diff'],
ascending=False)`: descending on `set_size_1_acc`, ties broken descending on
`acc_diff`. -/
def stimRowLe (a b : StimRow) : Prop :=
  b.set_size_1_acc < a.set_size_1_acc ∨
    (a.set_size_1_acc = b.set_size_1_acc ∧ b.acc_diff ≤ a.acc_diff)

instance : DecidableRel stimRowLe := fun a b => by
  unfold stimRowLe
  infer_instance

/-- The sort key of line 154, `sort_values(by='acc_diff', ascending=False)`. -/
def netRowLe (a b : NetRow) : Prop := b.acc_diff ≤ a.acc_diff

instance : DecidableRel netRowLe := fun a b => by
  unfold netRowLe
  infer_instance

/-- The mean of `acc_diff` over the rows of `df_acc_diff` with the given
stimulus. -/
def stimAccDiffMean (a : List ARow) (stim : String) : ℚ :=
  listMean ((a.filter (fun r => r.stimulus == stim)).map ARow.acc_diff)

/-- The mean of `set_size_1_acc` over the rows of `df_acc_diff` with the
given stimulus. -/
def stimSS1Mean (a : List ARow) (stim : String) : ℚ :=
  listMean ((a.filter (fun r => r.stimulus == stim)).map ARow.set_size_1_acc)

/-- The mean of `acc_diff` over the rows of `df_acc_diff` with the given net
name. -/
def netAccDiffMean (a : List ARow) (net : String) : ℚ :=
  listMean ((a.filter (fun r => r.net_name == net)).map ARow.acc_diff)

/-- Lines 147-149: group `df_acc_diff` by stimulus, take the means of
`acc_diff` and `set_size_1_acc`, and sort the result descending by
`['set_size_1_acc', 'acc_diff']`. -/
def stim_acc_diff_df (a : List ARow) : List StimRow :=
  let rows := (sortStrings (uniqueList (a.map ARow.stimulus))).map fun s =>
    StimRow.mk s (stimAccDiffMean a s) (stimSS1Mean a s)
  rows.insertionSort stimRowLe

/-- Lines 152-154: group `df_acc_diff` by net name, take the mean of
`acc_diff`, and sort the result descending by `acc_diff`. -/
def net_acc_diff_df (a : List ARow) : List NetRow :=
  let rows := (sortStrings (uniqueList (a.map ARow.net_name))).map fun n =>
    NetRow.mk n (netAccDiffMean a n)
  rows.insertionSort netRowLe

/-- A pivoted dataframe: a row index of net names, a column index of
stimuli, and a cell function (`none` embeds pandas `NaN`). -/
structure Pivot where
  index : List String
  columns : List String
  cell : String → String → Option ℚ

/-- A cell of `pivot_table(index='net_name', columns='stimulus')` on
`df_acc_diff[['net_name', 'stimulus', 'acc_diff']]`: the mean (the default
`aggfunc`) of `acc_diff` over the matching rows, `NaN` when there are
none. -/
def pivotCell (a : List ARow) (net stim : String) : Option ℚ :=
  let grp := a.filter (fun r => r.net_name == net && r.stimulus == stim)
  if grp.isEmpty then none else some (listMean (grp.map ARow.acc_diff))

/-- Line 162: the pivot table itself, with the sorted unique net names as
index and the sorted unique stimuli as columns. -/
def pivot_table (a : List ARow) : Pivot :=
  ⟨sortStrings (uniqueList (a.map ARow.net_name)),
   sortStrings (uniqueList (a.map ARow.stimulus)),
   fun n s => pivotCell a n s⟩

/-- Line 166, `reindex`: replace the row index; a requested net name absent
from the table yields a `NaN` row. -/
def reindexRows (p : Pivot) (idx : List String) : Pivot :=
  ⟨idx, p.columns, fun n s => if n ∈ p.index then p.cell n s else none⟩

/-- Line 167, column selection `df[cols]`: replace the column index. -/
def selectCols (p : Pivot) (cols : List String) : Pivot :=
  ⟨p.index, cols, p.cell⟩

/-- Lines 161-167: the pivoted table `df_acc_diff_by_stim`, reindexed by the
net ordering of `net_acc_diff_df` and column-ordered by the stimulus
ordering of `stim_acc_diff_df`. -/
def df_acc_diff_by_stim (a : List ARow) : Pivot :=
  selectCols (reindexRows (pivot_table a) ((net_acc_diff_df a).map NetRow.net_name))
    ((stim_acc_diff_df a).map StimRow.stimulus)

/-! ### The per-combination loop of `main` (lines 68-115) and the script
constants (lines 187-199) -/

/-- Module constant `METHODS` (lines 194-197). -/
def METHODS : List String := ["initialize", "transfer"]

/-- Module constant `MODES` (line 199). -/
def MODES : List String := ["classify"]

/-- Module constant `NET_NAMES` (lines 187-192). -/
def NET_NAMES : List String := ["alexnet", "VGG16", "CORnet_Z", "CORnet_S"]

/-- The environment `main` runs against: whether `source_data_root` exists,
the files reachable from `results_gz_root`, and the opaque external join
`searchnets.analysis.searchstims.results_gz_to_df` (path of the archive,
split-csv path, net name, method, mode, learning rate). -/
structure Env where
  sourceDataRootExists : Bool
  files : List String
  resultsGzToDf : String → String → String → String → String → ℚ → List Row

/-- The arguments of `main` that the aggregation logic consumes. -/
structure Args where
  net_names : List String
  methods : List String
  modes : List String
  alexnet_split_csv_path : String
  VGG16_split_csv_path : String
  learning_rate : ℚ
  all_csv_filename : String
  acc_diff_csv_filename : String
  stim_acc_diff_csv_filename : String
  net_acc_diff_csv_filename : String
  acc_diff_by_stim_csv_filename : String

/-- Line 85: `sorted(results_gz_root.glob(f'**/*{net_name}*{method}*gz'))`. -/
def globSorted (env : Env) (net_name method : String) : List String :=
  sortStrings (env.files.filter (globMatches net_name method))

/-- Lines 87-94: keep paths without (mode `'classify'`) or with (mode
`'detect'`) the substring `'detect'`; any other mode raises `ValueError`. -/
def modeFilter (mode : String) (paths : List String) : Except PyError (List String) :=
  if mode == "classify" then
    .ok (paths.filter (fun p => !(containsStr p "detect")))
  else if mode == "detect" then
    .ok (paths.filter (fun p => containsStr p "detect"))
  else
    .error (.valueError ("invalid mode: " ++ mode ++ ", must be one of: " ++ toString MODES))

/-- Lines 100-105: select the split csv by net name, raising `ValueError`
when no csv path is defined for the name. -/
def csvPathForNet (args : Args) (net_name : String) : Except PyError String :=
  if net_name == "alexnet" || containsStr net_name "CORnet" then
    .ok args.alexnet_split_csv_path
  else if net_name == "VGG16" then
    .ok args.VGG16_split_csv_path
  else
    .error (.valueError ("no csv path defined for net_name: " ++ net_name))

/-- The body of the innermost (mode) loop, lines 85-113: glob and sort, filter
by mode, insist on exactly one matching path, select the split csv and read
the archive.  On success it returns the joined dataframe and the path that
was read. -/
def processOne (env : Env) (args : Args) (net_name method mode : String) :
    Except PyError (List Row × String) :=
  match modeFilter mode (globSorted env net_name method) with
  | .error e => .error e
  | .ok filtered =>
    match filtered with
    | [path] =>
      match csvPathForNet args net_name with
      | .error e => .error e
      | .ok csv =>
        .ok (env.resultsGzToDf path csv net_name method mode args.learning_rate, path)
    | _ => .error (.valueError ("found more than one results.gz file: " ++ toString filtered))

/-- The running state of the nested loops: the dataframes appended to
`df_list` so far, the archive paths read so far, and the pending exception
(if one has been raised, nothing further runs). -/
structure RunState where
  dfs : List (List Row)
  log : List String
  err : Option PyError

def initState : RunState := ⟨[], [], none⟩

/-- One iteration of the mode loop. -/
def comboStep (env : Env) (args : Args) (net_name method mode : String)
    (st : RunState) : RunState :=
  match st.err with
  | some _ => st
  | none =>
    match processOne env args net_name method mode with
    | .error e => ⟨st.dfs, st.log, some e⟩
    | .ok (df, path) => ⟨st.dfs ++ [df], st.log ++ [path], none⟩

/-- The mode loop (lines 84-113) for one net name and method. -/
def runModesFold (env : Env) (args : Args) (net_name method : String)
    (modes : List String) (st : RunState) : RunState :=
  modes.foldl (fun s mo => comboStep env args net_name method mo s) st

/-- One iteration of the method loop (lines 79-113): the validity check of
lines 80-83 runs before the mode loop. -/
def runMethod (env : Env) (args : Args) (net_name method : String)
    (st : RunState) : RunState :=
  if st.err.isSome then st
  else if METHODS.contains method then
    runModesFold env args net_name method args.modes st
  else
    ⟨st.dfs, st.log,
     some (.valueError ("invalid method: " ++ method ++ ", must be one of: " ++ toString METHODS))⟩

/-- The method loop for one net name. -/
def runNet (env : Env) (args : Args) (st : RunState) (net_name : String) : RunState :=
  args.methods.foldl (fun s m => runMethod env args net_name m s) st

/-- The net-name loop (lines 78-113). -/
def runNets (env : Env) (args : Args) (nets : List String) (st : RunState) : RunState :=
  nets.foldl (runNet env args) st

/-- The loop state just before the iteration for `(net_name, method, mode)`,
where `ns1`, `ms1` and `mos1` are the portions of `net_names`, `methods`
and `modes` already consumed by the enclosing loops. -/
def stateAtMode (env : Env) (args : Args) (ns1 : List String) (net_name : String)
    (ms1 : List String) (method : String) (mos1 : List String) : RunState :=
  runModesFold env args net_name method mos1
    (ms1.foldl (fun s m => runMethod env args net_name m s)
      (runNets env args ns1 initState))

/-- The loop state just before the method-validity check for
`(net_name, method)`. -/
def stateAtMethod (env : Env) (args : Args) (ns1 : List String) (net_name : String)
    (ms1 : List String) : RunState :=
  ms1.foldl (fun s m => runMethod env args net_name m s) (runNets env args ns1 initState)

/-! ### `main` itself -/

/-- A filesystem side effect of `main`: reading a results archive, or
writing an output csv. -/
inductive FileEvent where
  | read (path : String)
  | write (filename : String)
  deriving DecidableEq, Repr

/-- The five dataframes `main` writes out at lines 170-175, in order. -/
structure Outputs where
  df_all : List Row
  df_acc_diff : List ARow
  stim_acc_diff_df : List StimRow
  net_acc_diff_df : List NetRow
  df_acc_diff_by_stim : Pivot

/-- `main` of `generate_source_data_csv.py` (lines 14-175): the result (the
five output tables, or the exception raised) together with the ordered
trace of filesystem reads and writes it performs. -/
def main (env : Env) (args : Args) : Except PyError Outputs × List FileEvent :=
  if !env.sourceDataRootExists then
    (.error (.notADirectoryError "directory specified as source_data_root not found"), [])
  else
    let st := runNets env args args.net_names initState
    match st.err with
    | some e => (.error e, st.log.map FileEvent.read)
    | none =>
      if st.dfs.isEmpty then
        (.error (.valueError "No objects to concatenate"), st.log.map FileEvent.read)
      else
        let df_all := st.dfs.flatten
        match accDiffRecords (df_transfer_acc_mn df_all) with
        | .error e => (.error e, st.log.map FileEvent.read)
        | .ok a =>
          (.ok ⟨df_all, a, stim_acc_diff_df a, net_acc_diff_df a, df_acc_diff_by_stim a⟩,
           st.log.map FileEvent.read ++
             [args.all_csv_filename, args.acc_diff_csv_filename,
              args.stim_acc_diff_csv_filename, args.net_acc_diff_csv_filename,
              args.acc_diff_by_stim_csv_filename].map FileEvent.write)

/-! ### `searchnets/classes/trainer.py` -/

/-- A constructed network.  The three `nets.*.build` constructors of the
`searchnets.nets` package are opaque to this file; they are embedded as
inert constructors recording the arguments they were called with. -/
inductive Model where
  | alexnet (pretrained : Bool) (num_classes : Nat)
  | vgg16 (pretrained : Bool) (num_classes : Nat)
  | cornet (pretrained : Bool) (num_classes : Nat)
  deriving DecidableEq, Repr

namespace nets

namespace alexnet

/-- `searchnets.nets.alexnet.build`. -/
def build (pretrained : Bool) (num_classes : Nat) : Model :=
  Model.alexnet pretrained num_classes

end alexnet

namespace vgg16

/-- `searchnets.nets.vgg16.build`. -/
def build (pretrained : Bool) (num_classes : Nat) : Model :=
  Model.vgg16 pretrained num_classes

end vgg16

namespace cornet

/-- `searchnets.nets.cornet.build`. -/
def build (pretrained : Bool) (num_classes : Nat) : Model :=
  Model.cornet pretrained num_classes

end cornet

end nets

/-- A constructed `torch.optim` optimizer, embedded as an inert record of
the arguments it was built from (the model whose parameters it optimizes,
the learning rate, and for SGD the momentum). -/
inductive Optimizer where
  | SGD (params : Model) (lr momentum : ℚ)
  | Adam (params : Model) (lr : ℚ)
  | AdamW (params : Model) (lr : ℚ)
  deriving DecidableEq, Repr

/-- The `Trainer` instance that `cls(**kwargs)` builds at line 77: the
fields of `kwargs` that `from_config` itself fills in. -/
structure TrainerRec where
  net_name : String
  model : Model
  optimizers : List Optimizer
  deriving DecidableEq, Repr

/-- Reading a Python local variable that may never have been assigned:
`UnboundLocalError` when no branch assigned it. -/
def localVar (x : Option Model) : Except PyError Model :=
  match x with
  | some m => .ok m
  | none => .error (.unboundLocalError "model")

namespace Trainer

/-- `Trainer.from_config` (trainer.py lines 20-78).  The `model` local is
assigned only by the three net-name branches of lines 54-59; every later
use of it goes through `localVar`, which raises `UnboundLocalError` when no
branch ran.  The optimizer dispatch of lines 61-74 appends at most one
optimizer; an unrecognized optimizer string leaves the list empty. -/
def from_config (net_name : String) (num_classes : Nat) (loss_func : String)
    (optimizer : String) (learning_rate momentum : ℚ) :
    Except PyError TrainerRec :=
  let model? : Option Model :=
    if net_name == "alexnet" then some (nets.alexnet.build false num_classes)
    else if net_name == "VGG16" then some (nets.vgg16.build false num_classes)
    else if net_name == "CORnet_Z" then some (nets.cornet.build false num_classes)
    else none
  let optimizersE : Except PyError (List Optimizer) :=
    if optimizer == "SGD" then
      match localVar model? with
      | .error e => .error e
      | .ok m => .ok [Optimizer.SGD m learning_rate momentum]
    else if optimizer == "Adam" then
      match localVar model? with
      | .error e => .error e
      | .ok m => .ok [Optimizer.Adam m learning_rate]
    else if optimizer == "AdamW" then
      match localVar model? with
      | .error e => .error e
      | .ok m => .ok [Optimizer.AdamW m learning_rate]
    else .ok []
  match optimizersE with
  | .error e => .error e
  | .ok optimizers =>
    match localVar model? with
    | .error e => .error e
    | .ok model => .ok ⟨net_name, model, optimizers⟩

end Trainer

/-! ### Claims C4, C9, C10: `Trainer.from_config` -/

/-- Claim C4: `Trainer.from_config` dispatches on the `net_name` string to
select the model constructor: `'alexnet'` yields a model built by
`nets.alexnet.build`, `'VGG16'` one built by `nets.vgg16.build`, and
`'CORnet_Z'` one built by `nets.cornet.build`, and in each case the
returned trainer is constructed with that model. -/
theorem from_config_dispatches_on_net_name
    (num_classes : Nat) (loss_func optimizer : String) (learning_rate momentum : ℚ) :
    (∃ t, Trainer.from_config "alexnet" num_classes loss_func optimizer
            learning_rate momentum = .ok t
        ∧ t.model = nets.alexnet.build false num_classes)
  ∧ (∃ t, Trainer.from_config "VGG16" num_classes loss_func optimizer
            learning_rate momentum = .ok t
        ∧ t.model = nets.vgg16.build false num_classes)
  ∧ (∃ t, Trainer.from_config "CORnet_Z" num_classes loss_func optimizer
            learning_rate momentum = .ok t
        ∧ t.model = nets.cornet.build false num_classes) := by
  refine ⟨?_, ?_, ?_⟩ <;>
    · unfold Trainer.from_config
      simp only [localVar]
      split_ifs <;> simp_all

/-- Claim C9: an optimizer string outside `{'SGD', 'Adam', 'AdamW'}` raises
no error and produces a trainer with an empty optimizers list (for any net
name that binds the model), and for `'Adam'` and `'AdamW'` the momentum
argument has no effect on the result. -/
theorem from_config_unknown_optimizer_and_momentum
    (net_name : String) (num_classes : Nat) (loss_func optimizer : String)
    (learning_rate m1 m2 : ℚ) :
    (net_name ∈ (["alexnet", "VGG16", "CORnet_Z"] : List String) →
      optimizer ∉ (["SGD", "Adam", "AdamW"] : List String) →
      ∃ t, Trainer.from_config net_name num_classes loss_func optimizer
             learning_rate m1 = .ok t
         ∧ t.optimizers = [])
  ∧ Trainer.from_config net_name num_classes loss_func "Adam" learning_rate m1
      = Trainer.from_config net_name num_classes loss_func "Adam" learning_rate m2
  ∧ Trainer.from_config net_name num_classes loss_func "AdamW" learning_rate m1
      = Trainer.from_config net_name num_classes loss_func "AdamW" learning_rate m2 := by
  refine ⟨?_, ?_, ?_⟩
  · intro hnet hopt
    have h1 : (optimizer == "SGD") = false := by
      simp only [beq_eq_false_iff_ne]; intro h; exact hopt (by simp [h])
    have h2 : (optimizer == "Adam") = false := by
      simp only [beq_eq_false_iff_ne]; intro h; exact hopt (by simp [h])
    have h3 : (optimizer == "AdamW") = false := by
      simp only [beq_eq_false_iff_ne]; intro h; exact hopt (by simp [h])
    unfold Trainer.from_config
    simp only [h1, h2, h3, if_false, Bool.false_eq_true]
    simp only [List.mem_cons, List.not_mem_nil, or_false] at hnet
    rcases hnet with h | h | h <;> subst h <;> exact ⟨_, rfl, rfl⟩
  · unfold Trainer.from_config
    simp
  · unfold Trainer.from_config
    simp

/-- Claim C10: for every net name outside `{'alexnet', 'VGG16', 'CORnet_Z'}`
— including `'CORnet_S'`, which the aggregation script's default
`NET_NAMES` list contains — no branch assigns the `model` local, so
`Trainer.from_config` fails with an unbound-local error instead of
returning a trainer or raising a validation error. -/
theorem from_config_unknown_net_unbound_local
    (net_name : String) (num_classes : Nat) (loss_func optimizer : String)
    (learning_rate momentum : ℚ)
    (h : net_name ∉ (["alexnet", "VGG16", "CORnet_Z"] : List String)) :
    Trainer.from_config net_name num_classes loss_func optimizer
        learning_rate momentum = .error (.unboundLocalError "model")
  ∧ "CORnet_S" ∈ NET_NAMES := by
  have h1 : (net_name == "alexnet") = false := by
    simp only [beq_eq_false_iff_ne]; intro hx; exact h (by simp [hx])
  have h2 : (net_name == "VGG16") = false := by
    simp only [beq_eq_false_iff_ne]; intro hx; exact h (by simp [hx])
  have h3 : (net_name == "CORnet_Z") = false := by
    simp only [beq_eq_false_iff_ne]; intro hx; exact h (by simp [hx])
  refine ⟨?_, by simp [NET_NAMES]⟩
  unfold Trainer.from_config
  simp only [h1, h2, h3, if_false, Bool.false_eq_true, localVar]
  split_ifs <;> rfl

/-! ### Claim C7: split-csv selection in `main` -/

/-- Claim C7: the dataset-split csv joined to each result archive is
selected by net name: `'alexnet'`, or any name containing `'CORnet'`, uses
the alexnet split csv; `'VGG16'` uses the VGG16 split csv; any other name
raises a `ValueError` saying no csv path is defined.  The path handed to
`results_gz_to_df` is exactly the selected one. -/
theorem main_split_csv_selection (env : Env) (args : Args) (net_name : String) :
    (net_name = "alexnet" ∨ containsStr net_name "CORnet" = true →
      csvPathForNet args net_name = .ok args.alexnet_split_csv_path)
  ∧ (net_name = "VGG16" →
      csvPathForNet args net_name = .ok args.VGG16_split_csv_path)
  ∧ (net_name ≠ "alexnet" → containsStr net_name "CORnet" = false →
      net_name ≠ "VGG16" →
      csvPathForNet args net_name =
        .error (.valueError ("no csv path defined for net_name: " ++ net_name)))
  ∧ (∀ method mode df path,
      processOne env args net_name method mode = .ok (df, path) →
      ∃ csv, csvPathForNet args net_name = .ok csv ∧
        df = env.resultsGzToDf path csv net_name method mode args.learning_rate) := by
  refine ⟨?_, ?_, ?_, ?_⟩
  · rintro (h | h)
    · subst h; rfl
    · unfold csvPathForNet
      simp [h]
  · intro h
    subst h
    unfold csvPathForNet
    rfl
  · intro h1 h2 h3
    unfold csvPathForNet
    simp [h1, h2, h3]
  · intro method mode df path hok
    unfold processOne at hok
    rcases hfil : modeFilter mode (globSorted env net_name method) with e | filtered
    · rw [hfil] at hok; cases hok
    · rw [hfil] at hok
      match filtered, hok with
      | [p], hok =>
        rcases hcsv : csvPathForNet args net_name with e | csv
        · rw [hcsv] at hok; cases hok
        · rw [hcsv] at hok
          cases hok
          exact ⟨csv, rfl, rfl⟩

/-! ### Error propagation through the loops of `main` -/

theorem comboStep_err {env : Env} {args : Args} {n m mo : String} {st : RunState}
    {e : PyError} (h : st.err = some e) : comboStep env args n m mo st = st := by
  simp [comboStep, h]

theorem runModesFold_err {env : Env} {args : Args} {n m : String}
    {modes : List String} {st : RunState} {e : PyError} (h : st.err = some e) :
    runModesFold env args n m modes st = st := by
  induction modes with
  | nil => rfl
  | cons mo rest ih =>
    show runModesFold env args n m rest (comboStep env args n m mo st) = st
    rw [comboStep_err h]
    exact ih

theorem runMethod_err {env : Env} {args : Args} {n m : String} {st : RunState}
    {e : PyError} (h : st.err = some e) : runMethod env args n m st = st := by
  simp [runMethod, h]

theorem foldl_runMethod_err {env : Env} {args : Args} {n : String}
    {ms : List String} {st : RunState} {e : PyError} (h : st.err = some e) :
    ms.foldl (fun s m => runMethod env args n m s) st = st := by
  induction ms with
  | nil => rfl
  | cons m rest ih =>
    show rest.foldl (fun s m => runMethod env args n m s) (runMethod env args n m st) = st
    rw [runMethod_err h]
    exact ih

theorem runNet_err {env : Env} {args : Args} {n : String} {st : RunState}
    {e : PyError} (h : st.err = some e) : runNet env args st n = st :=
  foldl_runMethod_err h

theorem runNets_err {env : Env} {args : Args} {nets : List String} {st : RunState}
    {e : PyError} (h : st.err = some e) : runNets env args nets st = st := by
  induction nets with
  | nil => rfl
  | cons n rest ih =>
    show runNets env args rest (runNet env args st n) = st
    rw [runNet_err h]
    exact ih

/-- When the method is valid, the method-loop iteration is exactly the mode
loop (whether or not an exception is already pending). -/
theorem runMethod_valid {env : Env} {args : Args} {n m : String} {st : RunState}
    (h : m ∈ METHODS) :
    runMethod env args n m st = runModesFold env args n m args.modes st := by
  rcases hst : st.err with _ | e
  · simp [runMethod, hst, h]
  · rw [runMethod_err hst, runModesFold_err hst]

/-- When the mode filter yields a list whose length is not one, the mode
iteration raises the (misnamed) more-than-one `ValueError`, before any
archive is read. -/
theorem processOne_len_ne_one (env : Env) (args : Args)
    (net_name method mode : String) (filtered : List String)
    (hfil : modeFilter mode (globSorted env net_name method) = .ok filtered)
    (hlen : filtered.length ≠ 1) :
    processOne env args net_name method mode = .error (.valueError
      ("found more than one results.gz file: " ++ toString filtered)) := by
  unfold processOne
  rw [hfil]
  match filtered, hlen with
  | [], _ => rfl
  | [p], hlen => exact absurd rfl hlen
  | p :: q :: rest, _ => rfl

/-! ### Claim C5: the exactly-one-results.gz check -/

/-- Claim C5: if, for a combination of net name, method and mode reached by
the loops of `main` (every earlier iteration having succeeded), the list of
glob-matched and mode-filtered results.gz paths has length other than one —
zero matches included — then `main` raises a `ValueError` whose message
claims `found more than one results.gz file`, and the run's read trace is
exactly what it was before that combination: no archive is read for it. -/
theorem main_results_gz_count_check
    (env : Env) (args : Args) (ns1 ns2 ms1 ms2 mos1 mos2 : List String)
    (net_name method mode : String) (filtered : List String)
    (hroot : env.sourceDataRootExists = true)
    (hnets : args.net_names = ns1 ++ net_name :: ns2)
    (hmeths : args.methods = ms1 ++ method :: ms2)
    (hmodes : args.modes = mos1 ++ mode :: mos2)
    (hvalid : method ∈ METHODS)
    (hfil : modeFilter mode (globSorted env net_name method) = .ok filtered)
    (hlen : filtered.length ≠ 1)
    (hpre : (stateAtMode env args ns1 net_name ms1 method mos1).err = none) :
    (main env args).1 = .error (.valueError
        ("found more than one results.gz file: " ++ toString filtered))
  ∧ (main env args).2 =
      (stateAtMode env args ns1 net_name ms1 method mos1).log.map FileEvent.read := by
  have hpo := processOne_len_ne_one env args net_name method mode filtered hfil hlen
  have hcs : comboStep env args net_name method mode
        (stateAtMode env args ns1 net_name ms1 method mos1) =
      ⟨(stateAtMode env args ns1 net_name ms1 method mos1).dfs,
       (stateAtMode env args ns1 net_name ms1 method mos1).log,
       some (.valueError ("found more than one results.gz file: " ++ toString filtered))⟩ := by
    simp only [comboStep, hpre, hpo]
  have hrun : runNets env args args.net_names initState =
      ⟨(stateAtMode env args ns1 net_name ms1 method mos1).dfs,
       (stateAtMode env args ns1 net_name ms1 method mos1).log,
       some (.valueError ("found more than one results.gz file: " ++ toString filtered))⟩ := by
    have hS1 : runNets env args (ns1 ++ net_name :: ns2) initState =
        runNets env args ns2
          (runNet env args (runNets env args ns1 initState) net_name) := by
      unfold runNets
      rw [List.foldl_append, List.foldl_cons]
    have hS2 : runNet env args (runNets env args ns1 initState) net_name =
        ms2.foldl (fun s m => runMethod env args net_name m s)
          (runMethod env args net_name method
            (ms1.foldl (fun s m => runMethod env args net_name m s)
              (runNets env args ns1 initState))) := by
      unfold runNet
      rw [hmeths, List.foldl_append, List.foldl_cons]
    have hS3 : runModesFold env args net_name method args.modes
        (ms1.foldl (fun s m => runMethod env args net_name m s)
          (runNets env args ns1 initState)) =
        runModesFold env args net_name method mos2
          (comboStep env args net_name method mode
            (stateAtMode env args ns1 net_name ms1 method mos1)) := by
      unfold runModesFold stateAtMode runModesFold
      rw [hmodes, List.foldl_append, List.foldl_cons]
    have habsorb : ∀ (st : RunState) (e : PyError), st.err = some e →
        runNets env args ns2
          (ms2.foldl (fun s m => runMethod env args net_name m s)
            (runModesFold env args net_name method mos2 st)) = st := by
      intro st e h
      rw [runModesFold_err h, foldl_runMethod_err h, runNets_err h]
    rw [hnets, hS1, hS2, runMethod_valid hvalid, hS3, hcs]
    exact habsorb _ _ rfl
  constructor
  · unfold main
    rw [hroot]
    simp only [Bool.not_true, Bool.false_eq_true, if_false, hrun]
  · unfold main
    rw [hroot]
    simp only [Bool.not_true, Bool.false_eq_true, if_false, hrun]

/-! ### Claim C6: the method-validity check -/

/-- Replace the `methods` argument, leaving everything else unchanged. -/
def Args.withMethods (args : Args) (ms : List String) : Args :=
  ⟨args.net_names, ms, args.modes, args.alexnet_split_csv_path,
   args.VGG16_split_csv_path, args.learning_rate, args.all_csv_filename,
   args.acc_diff_csv_filename, args.stim_acc_diff_csv_filename,
   args.net_acc_diff_csv_filename, args.acc_diff_by_stim_csv_filename⟩

/-- Claim C6: when the net-names list is non-empty and the methods list
contains a value outside `METHODS`, `main` raises a `ValueError`
identifying the invalid method (as soon as the loops reach it); and because
the check sits inside the per-net loop, when the net-names list is empty
the invalid method is never detected — the whole run is independent of the
methods list. -/
theorem main_invalid_method_check (env : Env) (args : Args) (method : String)
    (hinv : method ∉ METHODS) :
    (∀ ns1 ns2 ms1 ms2 net_name,
      env.sourceDataRootExists = true →
      args.net_names = ns1 ++ net_name :: ns2 →
      args.methods = ms1 ++ method :: ms2 →
      (stateAtMethod env args ns1 net_name ms1).err = none →
      (main env args).1 = .error (.valueError
        ("invalid method: " ++ method ++ ", must be one of: " ++ toString METHODS)))
  ∧ (args.net_names = [] →
      ∀ ms', main env args = main env (args.withMethods ms')) := by
  constructor
  · intro ns1 ns2 ms1 ms2 net_name hroot hnets hmeths hpre
    set E : PyError :=
      .valueError ("invalid method: " ++ method ++ ", must be one of: " ++ toString METHODS)
      with hE
    set stB := stateAtMethod env args ns1 net_name ms1 with hstB
    have hcontains : METHODS.contains method = false := by
      rcases h : METHODS.contains method with _ | _
      · rfl
      · exact absurd (List.mem_of_elem_eq_true h) hinv
    have hrm : runMethod env args net_name method stB = ⟨stB.dfs, stB.log, some E⟩ := by
      unfold runMethod
      rw [hpre]
      simp only [Option.isSome_none, Bool.false_eq_true, if_false, hcontains]
    have hrun : runNets env args args.net_names initState = ⟨stB.dfs, stB.log, some E⟩ := by
      rw [hnets]
      unfold runNets
      rw [List.foldl_append, List.foldl_cons]
      show runNets env args ns2
        (runNet env args (runNets env args ns1 initState) net_name) = _
      unfold runNet
      rw [hmeths, List.foldl_append, List.foldl_cons]
      have hfold : ms1.foldl (fun s m => runMethod env args net_name m s)
          (runNets env args ns1 initState) = stB := rfl
      rw [hfold, hrm, foldl_runMethod_err rfl, runNets_err rfl]
    unfold main
    rw [hroot]
    simp only [Bool.not_true, Bool.false_eq_true, if_false, hrun]
  · intro hempty ms'
    have h2 : (args.withMethods ms').net_names = [] := hempty
    unfold main
    rw [hempty, h2]
    rfl

/-! ### Claim C8: output files are written only after full success -/

/-- Claim C8: the five output csvs are written only at the very end of
`main`, after every read, group and sort step; whenever `main` raises any
error, its event trace contains no write at all, so an erroring run leaves
the source-data directory unchanged. -/
theorem main_writes_only_after_success (env : Env) (args : Args) (e : PyError)
    (h : (main env args).1 = .error e) :
    ∀ f, FileEvent.write f ∉ (main env args).2 := by
  intro f
  revert h
  unfold main
  split
  · intro _
    simp
  · dsimp only
    split
    · intro _
      simp
    · split
      · intro _
        simp
      · split
        · intro _
          simp
        · intro h
          simp at h

/-! ### Properties of the grouped mean table -/

/-- The grouping key of a row of the grouped summary table. -/
def gkey (g : GRow) : String × String × Nat := (g.net_name, g.stimulus, g.set_size)

theorem accuracy_of_mem_groupMeanAcc (rows : List Row) (x : GRow)
    (hx : x ∈ groupMeanAcc rows) :
    x.accuracy =
      listMean ((rows.filter (fun r => decide (keyOf r = gkey x))).map Row.accuracy) := by
  unfold groupMeanAcc at hx
  obtain ⟨k, hk, rfl⟩ := List.mem_map.mp hx
  rfl

theorem fields_of_mem_groupMeanAcc (rows : List Row) (x : GRow)
    (hx : x ∈ groupMeanAcc rows) : gkey x ∈ rows.map keyOf := by
  unfold groupMeanAcc at hx
  obtain ⟨k, hk, rfl⟩ := List.mem_map.mp hx
  have : gkey ⟨k.1, k.2.1, k.2.2, listMean
      ((rows.filter (fun r => decide (keyOf r = k))).map Row.accuracy)⟩ = k := rfl
  rw [this]
  exact mem_uniqueList.mp ((List.mem_insertionSort _).mp hk)

theorem countP_groupMeanAcc (rows : List Row) (k : String × String × Nat)
    (h : k ∈ rows.map keyOf) :
    (groupMeanAcc rows).countP (fun g => decide (gkey g = k)) = 1 := by
  unfold groupMeanAcc
  rw [List.countP_map]
  have hmem : k ∈ sortKeys (uniqueList (rows.map keyOf)) :=
    (List.mem_insertionSort _).mpr (mem_uniqueList.mpr h)
  have hnd : (sortKeys (uniqueList (rows.map keyOf))).Nodup :=
    (List.perm_insertionSort _ (uniqueList (rows.map keyOf))).nodup_iff.mpr
      (nodup_uniqueList (rows.map keyOf))
  have hcongr : (sortKeys (uniqueList (rows.map keyOf))).countP
      ((fun g => decide (gkey g = k)) ∘ fun k' =>
        (⟨k'.1, k'.2.1, k'.2.2, listMean
          ((rows.filter (fun r => decide (keyOf r = k'))).map Row.accuracy)⟩ : GRow)) =
      (sortKeys (uniqueList (rows.map keyOf))).countP (fun k' => decide (k' = k)) := by
    apply List.countP_congr
    intro x _
    by_cases hxk : x = k
    · simp [hxk, gkey]
    · simp only [Function.comp]
      have h1 : gkey (⟨x.1, x.2.1, x.2.2, listMean
          ((rows.filter (fun r => decide (keyOf r = x))).map Row.accuracy)⟩ : GRow) = x := rfl
      rw [h1]
  rw [hcongr]
  rw [show (sortKeys (uniqueList (rows.map keyOf))).countP (fun k' => decide (k' = k)) =
      @List.count _ instBEqOfDecidableEq k (sortKeys (uniqueList (rows.map keyOf))) from rfl]
  exact List.count_eq_one_of_mem hnd hmem

/-! ### Claim C2: the transfer-method grouped mean table -/

/-- Claim C2: for every `(net_name, stimulus, set_size)` triple present
among the transfer-method rows of the concatenated results,
`df_transfer_acc_mn` contains exactly one row with that key, its accuracy
is the arithmetic mean of the accuracies of those rows, and rows with
method `'initialize'` contribute nothing: dropping them first changes
nothing. -/
theorem df_transfer_acc_mn_group_mean (df_all : List Row) (net stim : String) (ss : Nat)
    (hpres : ∃ r ∈ df_all,
      r.method = "transfer" ∧ r.net_name = net ∧ r.stimulus = stim ∧ r.set_size = ss) :
    (df_transfer_acc_mn df_all).countP (fun g => decide (gkey g = (net, stim, ss))) = 1
  ∧ (∀ g ∈ df_transfer_acc_mn df_all, gkey g = (net, stim, ss) →
      g.accuracy = meanTransferAcc df_all net stim ss)
  ∧ df_transfer_acc_mn df_all =
      df_transfer_acc_mn (df_all.filter (fun r => decide (r.method ≠ "initialize"))) := by
  obtain ⟨r, hr, hmeth, hnet, hstim, hss⟩ := hpres
  have hrtr : r ∈ df_all.filter (fun r => r.method == "transfer") := by
    rw [List.mem_filter]
    exact ⟨hr, by simp [hmeth]⟩
  have hkey : keyOf r = (net, stim, ss) := by simp [keyOf, hnet, hstim, hss]
  refine ⟨?_, ?_, ?_⟩
  · exact countP_groupMeanAcc (df_all.filter (fun r => r.method == "transfer"))
      (net, stim, ss) (hkey ▸ List.mem_map_of_mem keyOf hrtr)
  · intro g hg hgk
    have hacc := accuracy_of_mem_groupMeanAcc
      (df_all.filter (fun r => r.method == "transfer")) g hg
    rw [hacc, hgk]
    unfold meanTransferAcc
    congr 2
    apply List.filter_congr
    intro a _
    by_cases h1 : a.net_name = net <;> by_cases h2 : a.stimulus = stim <;>
      by_cases h3 : a.set_size = ss <;>
      simp [keyOf, Prod.ext_iff, h1, h2, h3]
  · unfold df_transfer_acc_mn
    congr 1
    rw [List.filter_filter]
    apply List.filter_congr
    intro a _
    rcases hb : (a.method == "transfer") with _ | _
    · simp
    · have ha : a.method = "transfer" := by
        have := hb
        simpa using this
      simp [ha]

/-! ### The records loop: supporting lemmas -/

/-- The rows of a grouped table with the given net name, stimulus and set
size. -/
def gfilter (gg : List GRow) (net stim : String) (ss : Nat) : List GRow :=
  gg.filter (fun x => x.net_name == net && x.stimulus == stim && x.set_size == ss)

theorem mem_gfilter_iff {gg : List GRow} {net stim : String} {ss : Nat} {x : GRow} :
    x ∈ gfilter gg net stim ss ↔
      x ∈ gg ∧ x.net_name = net ∧ x.stimulus = stim ∧ x.set_size = ss := by
  unfold gfilter
  rw [List.mem_filter]
  simp [and_assoc]

/-- The successive single-column filters of the records loop agree with the
three-column filter. -/
theorem filter_chain (gg : List GRow) (net stim : String) (ss : Nat) :
    ((gg.filter (fun x => x.net_name == net)).filter (fun g => g.stimulus == stim)).filter
      (fun g => g.set_size == ss) = gfilter gg net stim ss := by
  rw [List.filter_filter, List.filter_filter]
  apply List.filter_congr
  intro a _
  cases h1 : a.net_name == net <;> cases h2 : a.stimulus == stim <;>
    cases h3 : a.set_size == ss <;> simp [h1, h2, h3]

/-- A row of `df_transfer_acc_mn` carries the mean accuracy over the
transfer rows with its own key. -/
theorem accuracy_eq_meanTransferAcc (df_all : List Row) (g : GRow)
    (hg : g ∈ df_transfer_acc_mn df_all) :
    g.accuracy = meanTransferAcc df_all g.net_name g.stimulus g.set_size := by
  have hacc := accuracy_of_mem_groupMeanAcc
    (df_all.filter (fun r => r.method == "transfer")) g hg
  rw [hacc]
  unfold meanTransferAcc
  congr 2
  apply List.filter_congr
  intro a _
  by_cases h1 : a.net_name = g.net_name <;> by_cases h2 : a.stimulus = g.stimulus <;>
    by_cases h3 : a.set_size = g.set_size <;>
    simp [keyOf, gkey, Prod.ext_iff, h1, h2, h3]

/-- The inner stimulus loop succeeds when every listed stimulus has exactly
one set-size-1 and one set-size-8 row, and each record's accuracies come
from those unique rows. -/
theorem recordsForStims_ok (gg : List GRow) (net : String) (stims : List String)
    (hlen : ∀ stim ∈ stims,
      (gfilter gg net stim 1).length = 1 ∧ (gfilter gg net stim 8).length = 1) :
    ∃ recs, recordsForStims (gg.filter (fun x => x.net_name == net)) net stims = .ok recs ∧
      ∀ stim ∈ stims, ∃ a ∈ recs,
        a.net_name = net ∧ a.stimulus = stim ∧
        (∃ w1 ∈ gfilter gg net stim 1, a.set_size_1_acc = w1.accuracy) ∧
        (∃ w8 ∈ gfilter gg net stim 8, a.set_size_8_acc = w8.accuracy) ∧
        a.acc_diff = a.set_size_1_acc - a.set_size_8_acc := by
  induction stims with
  | nil => exact ⟨[], rfl, by simp⟩
  | cons stim rest ih =>
    obtain ⟨hl1, hl8⟩ := hlen stim (by simp)
    obtain ⟨w1, hw1⟩ := List.length_eq_one.mp hl1
    obtain ⟨w8, hw8⟩ := List.length_eq_one.mp hl8
    obtain ⟨more, hmore, hprop⟩ := ih (fun s hs => hlen s (List.mem_cons_of_mem _ hs))
    refine ⟨⟨net, stim, w1.accuracy, w8.accuracy, w1.accuracy - w8.accuracy⟩ :: more, ?_, ?_⟩
    · simp only [recordsForStims]
      rw [filter_chain, filter_chain, hw1, hw8, hmore]
      rfl
    · intro s hs
      rcases List.mem_cons.mp hs with rfl | hs'
      · refine ⟨⟨net, s, w1.accuracy, w8.accuracy, w1.accuracy - w8.accuracy⟩,
          List.mem_cons_self _ _, rfl, rfl, ?_, ?_, rfl⟩
        · exact ⟨w1, by rw [hw1]; exact List.mem_singleton_self _, rfl⟩
        · exact ⟨w8, by rw [hw8]; exact List.mem_singleton_self _, rfl⟩
      · obtain ⟨a, ha, hps⟩ := hprop s hs'
        exact ⟨a, List.mem_cons_of_mem _ ha, hps⟩

/-- The outer net loop succeeds under the same conditions, net by net. -/
theorem recordsForNets_ok (gg : List GRow) (nets : List String)
    (hlen : ∀ net ∈ nets,
      ∀ stim ∈ uniqueList ((gg.filter (fun x => x.net_name == net)).map GRow.stimulus),
        (gfilter gg net stim 1).length = 1 ∧ (gfilter gg net stim 8).length = 1) :
    ∃ recs, recordsForNets gg nets = .ok recs ∧
      ∀ net ∈ nets,
        ∀ stim ∈ uniqueList ((gg.filter (fun x => x.net_name == net)).map GRow.stimulus),
          ∃ a ∈ recs, a.net_name = net ∧ a.stimulus = stim ∧
            (∃ w1 ∈ gfilter gg net stim 1, a.set_size_1_acc = w1.accuracy) ∧
            (∃ w8 ∈ gfilter gg net stim 8, a.set_size_8_acc = w8.accuracy) ∧
            a.acc_diff = a.set_size_1_acc - a.set_size_8_acc := by
  induction nets with
  | nil => exact ⟨[], rfl, by simp⟩
  | cons net rest ih =>
    obtain ⟨recs1, hrecs1, hp1⟩ := recordsForStims_ok gg net
      (uniqueList ((gg.filter (fun x => x.net_name == net)).map GRow.stimulus))
      (hlen net (by simp))
    obtain ⟨recs2, hrecs2, hp2⟩ := ih (fun n hn => hlen n (List.mem_cons_of_mem _ hn))
    refine ⟨recs1 ++ recs2, ?_, ?_⟩
    · simp only [recordsForNets]
      rw [hrecs1, hrecs2]
    · intro n hn s hs
      rcases List.mem_cons.mp hn with rfl | hn'
      · obtain ⟨a, ha, hps⟩ := hp1 s hs
        exact ⟨a, List.mem_append_left _ ha, hps⟩
      · obtain ⟨a, ha, hps⟩ := hp2 n hn' s hs
        exact ⟨a, List.mem_append_right _ ha, hps⟩

/-! ### Claim C1: the recorded accuracy differences -/

/-- Claim C1: under the precondition that the grouped table has exactly one
set-size-1 row and exactly one set-size-8 row for every `(net_name,
stimulus)` pair appearing in it, the records loop succeeds, and for every
pair the recorded `acc_diff` is the mean accuracy at set size 1 minus the
mean accuracy at set size 8 for that pair. -/
theorem df_acc_diff_values (df_all : List Row)
    (h : ∀ g ∈ df_transfer_acc_mn df_all,
      (gfilter (df_transfer_acc_mn df_all) g.net_name g.stimulus 1).length = 1 ∧
      (gfilter (df_transfer_acc_mn df_all) g.net_name g.stimulus 8).length = 1) :
    ∃ recs, accDiffRecords (df_transfer_acc_mn df_all) = .ok recs ∧
      ∀ g ∈ df_transfer_acc_mn df_all, ∃ a ∈ recs,
        a.net_name = g.net_name ∧ a.stimulus = g.stimulus ∧
        a.acc_diff = meanTransferAcc df_all g.net_name g.stimulus 1
                   - meanTransferAcc df_all g.net_name g.stimulus 8 := by
  have hlen : ∀ net ∈ uniqueList ((df_transfer_acc_mn df_all).map GRow.net_name),
      ∀ stim ∈ uniqueList (((df_transfer_acc_mn df_all).filter
          (fun x => x.net_name == net)).map GRow.stimulus),
        (gfilter (df_transfer_acc_mn df_all) net stim 1).length = 1 ∧
        (gfilter (df_transfer_acc_mn df_all) net stim 8).length = 1 := by
    intro net hnet stim hstim
    obtain ⟨g', hg', hgs⟩ := List.mem_map.mp (mem_uniqueList.mp hstim)
    obtain ⟨hg'mem, hg'net⟩ := List.mem_filter.mp hg'
    have hg'net' : g'.net_name = net := by simpa using hg'net
    have := h g' hg'mem
    rw [hg'net', hgs] at this
    exact this
  obtain ⟨recs, hrecs, hprop⟩ := recordsForNets_ok (df_transfer_acc_mn df_all)
    (uniqueList ((df_transfer_acc_mn df_all).map GRow.net_name)) hlen
  refine ⟨recs, hrecs, ?_⟩
  intro g hg
  have hnet : g.net_name ∈ uniqueList ((df_transfer_acc_mn df_all).map GRow.net_name) :=
    mem_uniqueList.mpr (List.mem_map_of_mem GRow.net_name hg)
  have hgf : g ∈ (df_transfer_acc_mn df_all).filter (fun x => x.net_name == g.net_name) := by
    rw [List.mem_filter]
    exact ⟨hg, by simp⟩
  have hstim : g.stimulus ∈ uniqueList (((df_transfer_acc_mn df_all).filter
      (fun x => x.net_name == g.net_name)).map GRow.stimulus) :=
    mem_uniqueList.mpr (List.mem_map_of_mem GRow.stimulus hgf)
  obtain ⟨a, ha, hanet, hastim, ⟨w1, hw1, ha1⟩, ⟨w8, hw8, ha8⟩, hadiff⟩ :=
    hprop g.net_name hnet g.stimulus hstim
  refine ⟨a, ha, hanet, hastim, ?_⟩
  obtain ⟨hw1mem, hw1net, hw1stim, hw1ss⟩ := mem_gfilter_iff.mp hw1
  obtain ⟨hw8mem, hw8net, hw8stim, hw8ss⟩ := mem_gfilter_iff.mp hw8
  have e1 := accuracy_eq_meanTransferAcc df_all w1 hw1mem
  have e8 := accuracy_eq_meanTransferAcc df_all w8 hw8mem
  rw [hw1net, hw1stim, hw1ss] at e1
  rw [hw8net, hw8stim, hw8ss] at e8
  rw [hadiff, ha1, ha8, e1, e8]

/-! ### Shape of the records and uniqueness of the (net, stimulus) pairs -/

/-- The (net name, stimulus) pair of an accuracy-difference record. -/
def apair (a : ARow) : String × String := (a.net_name, a.stimulus)

theorem recordsForStims_shape (df_net : List GRow) (net : String) :
    ∀ (stims : List String) (recs : List ARow),
      recordsForStims df_net net stims = .ok recs →
      recs.map ARow.stimulus = stims ∧ ∀ a ∈ recs, a.net_name = net := by
  intro stims
  induction stims with
  | nil =>
    intro recs h
    cases h
    exact ⟨rfl, by simp⟩
  | cons stim rest ih =>
    intro recs h
    simp only [recordsForStims] at h
    split at h
    · cases h
    · split at h
      · cases h
      · split at h
        · cases h
        · cases h
          rename_i a1 heq1 a8 heq8 more heqrec
          obtain ⟨hmap, hnet⟩ := ih more heqrec
          refine ⟨by rw [List.map_cons, hmap], ?_⟩
          intro a ha
          rcases List.mem_cons.mp ha with rfl | ha'
          · rfl
          · exact hnet a ha'

theorem recordsForNets_pairs (gg : List GRow) :
    ∀ (nets : List String) (recs : List ARow),
      recordsForNets gg nets = .ok recs → nets.Nodup →
      (recs.map apair).Nodup ∧ ∀ a ∈ recs, a.net_name ∈ nets := by
  intro nets
  induction nets with
  | nil =>
    intro recs h _
    cases h
    exact ⟨List.nodup_nil, by simp⟩
  | cons net rest ih =>
    intro recs h hnd
    simp only [recordsForNets] at h
    split at h
    · cases h
    · split at h
      · cases h
      · cases h
        rename_i s1 recs1 heq1 s2 recs2 heq2
        obtain ⟨hshape, hnet1⟩ := recordsForStims_shape _ net _ recs1 heq1
        obtain ⟨hndrest, hnd2⟩ := List.nodup_cons.mp hnd
        obtain ⟨hndp2, hin2⟩ := ih recs2 heq2 hnd2
        constructor
        · rw [List.map_append]
          apply List.Nodup.append
          · have hmap1 : recs1.map apair =
                (recs1.map ARow.stimulus).map (fun s => (net, s)) := by
              rw [List.map_map]
              apply List.map_congr_left
              intro a ha
              simp [apair, hnet1 a ha]
            rw [hmap1, hshape]
            apply List.Nodup.map ?_ (nodup_uniqueList _)
            intro s1 s2 hs
            exact (Prod.mk.injEq net s1 net s2 ▸ hs).2
          · exact hndp2
          · intro p hp1 hp2
            obtain ⟨a1, ha1, rfl⟩ := List.mem_map.mp hp1
            obtain ⟨a2, ha2, hpa⟩ := List.mem_map.mp hp2
            apply hndrest
            have h1 : (apair a1).1 = net := by
              simp [apair, hnet1 a1 ha1]
            have h2 : (apair a1).1 = a2.net_name := by
              rw [← hpa]
              rfl
            rw [← h1, h2]
            exact hin2 a2 ha2
        · intro a ha
          rcases List.mem_append.mp ha with h' | h'
          · rw [hnet1 a h']
            exact List.mem_cons_self _ _
          · exact List.mem_cons_of_mem _ (hin2 a h')

/-- In a record list with distinct (net, stimulus) pairs, filtering on the
pair of a member yields exactly that member. -/
theorem filter_pair_eq_singleton (r : ARow) :
    ∀ (a : List ARow), (a.map apair).Nodup → r ∈ a →
      a.filter (fun x => x.net_name == r.net_name && x.stimulus == r.stimulus) = [r] := by
  intro a
  induction a with
  | nil => intro _ hr; cases hr
  | cons b rest ih =>
    intro hnd hr
    rw [List.map_cons, List.nodup_cons] at hnd
    obtain ⟨hb, hnd'⟩ := hnd
    rcases List.mem_cons.mp hr with rfl | hr'
    · rw [List.filter_cons_of_pos (by simp)]
      have hrest : rest.filter
          (fun x => x.net_name == r.net_name && x.stimulus == r.stimulus) = [] := by
        rw [List.filter_eq_nil_iff]
        intro x hx hpx
        apply hb
        have hpair : apair x = apair r := by
          simp only [Bool.and_eq_true, beq_iff_eq] at hpx
          simp [apair, hpx.1, hpx.2]
        rw [← hpair]
        exact List.mem_map_of_mem apair hx
      rw [hrest]
    · have hpred : (b.net_name == r.net_name && b.stimulus == r.stimulus) = false := by
        rcases hp : (b.net_name == r.net_name && b.stimulus == r.stimulus) with _ | _
        · rfl
        · exfalso
          apply hb
          have hpair : apair b = apair r := by
            simp only [Bool.and_eq_true, beq_iff_eq] at hp
            simp [apair, hp.1, hp.2]
          rw [hpair]
          exact List.mem_map_of_mem apair hr'
      rw [List.filter_cons_of_neg (by simp [hpred])]
      exact ih hnd' hr'

/-! ### The descending sort orders of lines 149 and 154 -/

instance : IsTrans NetRow netRowLe := by
  constructor
  intro a b c hab hbc
  exact le_trans hbc hab

instance : IsTotal NetRow netRowLe := by
  constructor
  intro a b
  exact le_total b.acc_diff a.acc_diff

instance : IsTrans StimRow stimRowLe := by
  constructor
  intro a b c hab hbc
  unfold stimRowLe at hab hbc ⊢
  rcases hab with h1 | ⟨h1, h1'⟩ <;> rcases hbc with h2 | ⟨h2, h2'⟩
  · exact Or.inl (lt_trans h2 h1)
  · exact Or.inl (by rw [← h2]; exact h1)
  · exact Or.inl (by rw [h1]; exact h2)
  · exact Or.inr ⟨h1.trans h2, le_trans h2' h1'⟩

instance : IsTotal StimRow stimRowLe := by
  constructor
  intro a b
  unfold stimRowLe
  rcases lt_trichotomy a.set_size_1_acc b.set_size_1_acc with h | h | h
  · exact Or.inr (Or.inl h)
  · rcases le_total b.acc_diff a.acc_diff with h2 | h2
    · exact Or.inl (Or.inr ⟨h, h2⟩)
    · exact Or.inr (Or.inr ⟨h.symm, h2⟩)
  · exact Or.inl (Or.inl h)

/-! ### Contents of the two sorted summary tables -/

theorem mem_stim_acc_diff_df {a : List ARow} {x : StimRow}
    (hx : x ∈ stim_acc_diff_df a) :
    x.acc_diff = stimAccDiffMean a x.stimulus ∧
    x.set_size_1_acc = stimSS1Mean a x.stimulus := by
  simp only [stim_acc_diff_df] at hx
  obtain ⟨s, hs, rfl⟩ := List.mem_map.mp ((List.mem_insertionSort _).mp hx)
  exact ⟨rfl, rfl⟩

theorem mem_net_acc_diff_df {a : List ARow} {x : NetRow}
    (hx : x ∈ net_acc_diff_df a) :
    x.acc_diff = netAccDiffMean a x.net_name := by
  simp only [net_acc_diff_df] at hx
  obtain ⟨n, hn, rfl⟩ := List.mem_map.mp ((List.mem_insertionSort _).mp hx)
  rfl

theorem stim_acc_diff_df_stimuli_perm (a : List ARow) :
    List.Perm ((stim_acc_diff_df a).map StimRow.stimulus)
      (uniqueList (a.map ARow.stimulus)) := by
  simp only [stim_acc_diff_df]
  have h1 : List.Perm (((sortStrings (uniqueList (a.map ARow.stimulus))).map fun s =>
        StimRow.mk s (stimAccDiffMean a s) (stimSS1Mean a s)).insertionSort stimRowLe)
      ((sortStrings (uniqueList (a.map ARow.stimulus))).map fun s =>
        StimRow.mk s (stimAccDiffMean a s) (stimSS1Mean a s)) :=
    List.perm_insertionSort _ _
  have h2 := h1.map StimRow.stimulus
  rw [List.map_map] at h2
  have h3 : ((sortStrings (uniqueList (a.map ARow.stimulus))).map
      (StimRow.stimulus ∘ fun s => StimRow.mk s (stimAccDiffMean a s) (stimSS1Mean a s))) =
      sortStrings (uniqueList (a.map ARow.stimulus)) := by
    rw [show (StimRow.stimulus ∘ fun s =>
        StimRow.mk s (stimAccDiffMean a s) (stimSS1Mean a s)) = id from rfl]
    exact List.map_id _
  rw [h3] at h2
  exact h2.trans (sortStrings_perm _)

theorem net_acc_diff_df_nets_perm (a : List ARow) :
    List.Perm ((net_acc_diff_df a).map NetRow.net_name)
      (uniqueList (a.map ARow.net_name)) := by
  simp only [net_acc_diff_df]
  have h1 : List.Perm (((sortStrings (uniqueList (a.map ARow.net_name))).map fun n =>
        NetRow.mk n (netAccDiffMean a n)).insertionSort netRowLe)
      ((sortStrings (uniqueList (a.map ARow.net_name))).map fun n =>
        NetRow.mk n (netAccDiffMean a n)) :=
    List.perm_insertionSort _ _
  have h2 := h1.map NetRow.net_name
  rw [List.map_map] at h2
  have h3 : ((sortStrings (uniqueList (a.map ARow.net_name))).map
      (NetRow.net_name ∘ fun n => NetRow.mk n (netAccDiffMean a n))) =
      sortStrings (uniqueList (a.map ARow.net_name)) := by
    rw [show (NetRow.net_name ∘ fun n => NetRow.mk n (netAccDiffMean a n)) = id from rfl]
    exact List.map_id _
  rw [h3] at h2
  exact h2.trans (sortStrings_perm _)

/-! ### Claim C3: the pivoted table -/

/-- Claim C3: `df_acc_diff_by_stim` has one row per net name and one column
per stimulus of `df_acc_diff`; the cell at `(net_name, stimulus)` is the
`acc_diff` computed for that pair; the rows follow `net_acc_diff_df`'s
ordering, which is by decreasing mean `acc_diff` across stimuli; and the
columns follow `stim_acc_diff_df`'s ordering, namely decreasing mean
`set_size_1_acc` with ties broken by decreasing mean `acc_diff`. -/
theorem df_acc_diff_by_stim_layout (df_all : List Row) (a : List ARow)
    (hok : accDiffRecords (df_transfer_acc_mn df_all) = .ok a) :
    ((df_acc_diff_by_stim a).index.Nodup ∧
      ∀ n, n ∈ (df_acc_diff_by_stim a).index ↔ n ∈ a.map ARow.net_name)
  ∧ ((df_acc_diff_by_stim a).columns.Nodup ∧
      ∀ s, s ∈ (df_acc_diff_by_stim a).columns ↔ s ∈ a.map ARow.stimulus)
  ∧ (∀ r ∈ a, (df_acc_diff_by_stim a).cell r.net_name r.stimulus = some r.acc_diff)
  ∧ (df_acc_diff_by_stim a).index = (net_acc_diff_df a).map NetRow.net_name
  ∧ (df_acc_diff_by_stim a).index.Pairwise
      (fun n1 n2 => netAccDiffMean a n2 ≤ netAccDiffMean a n1)
  ∧ (df_acc_diff_by_stim a).columns = (stim_acc_diff_df a).map StimRow.stimulus
  ∧ (df_acc_diff_by_stim a).columns.Pairwise (fun s1 s2 =>
      stimSS1Mean a s2 < stimSS1Mean a s1 ∨
        (stimSS1Mean a s1 = stimSS1Mean a s2 ∧
          stimAccDiffMean a s2 ≤ stimAccDiffMean a s1)) := by
  have hidx : (df_acc_diff_by_stim a).index = (net_acc_diff_df a).map NetRow.net_name := rfl
  have hcols : (df_acc_diff_by_stim a).columns = (stim_acc_diff_df a).map StimRow.stimulus := rfl
  have hpermn := net_acc_diff_df_nets_perm a
  have hperms := stim_acc_diff_df_stimuli_perm a
  have hpairsnd : (a.map apair).Nodup :=
    (recordsForNets_pairs (df_transfer_acc_mn df_all)
      (uniqueList ((df_transfer_acc_mn df_all).map GRow.net_name)) a hok
      (nodup_uniqueList _)).1
  refine ⟨⟨?_, ?_⟩, ⟨?_, ?_⟩, ?_, hidx, ?_, hcols, ?_⟩
  · rw [hidx]
    exact hpermn.nodup_iff.mpr (nodup_uniqueList _)
  · intro n
    rw [hidx, hpermn.mem_iff, mem_uniqueList]
  · rw [hcols]
    exact hperms.nodup_iff.mpr (nodup_uniqueList _)
  · intro s
    rw [hcols, hperms.mem_iff, mem_uniqueList]
  · intro r hr
    have hmem : r.net_name ∈ (pivot_table a).index :=
      (List.mem_insertionSort _).mpr (mem_uniqueList.mpr (List.mem_map_of_mem ARow.net_name hr))
    show (if r.net_name ∈ (pivot_table a).index then pivotCell a r.net_name r.stimulus
      else none) = some r.acc_diff
    rw [if_pos hmem]
    unfold pivotCell
    rw [filter_pair_eq_singleton r a hpairsnd hr]
    simp [listMean_singleton]
  · rw [hidx]
    rw [List.pairwise_map]
    have hsorted : (net_acc_diff_df a).Pairwise netRowLe := by
      simp only [net_acc_diff_df]
      exact List.sorted_insertionSort netRowLe _
    apply hsorted.imp_of_mem
    intro x y hx hy hxy
    have hxv := mem_net_acc_diff_df hx
    have hyv := mem_net_acc_diff_df hy
    rw [← hxv, ← hyv]
    exact hxy
  · rw [hcols]
    rw [List.pairwise_map]
    have hsorted : (stim_acc_diff_df a).Pairwise stimRowLe := by
      simp only [stim_acc_diff_df]
      exact List.sorted_insertionSort stimRowLe _
    apply hsorted.imp_of_mem
    intro x y hx hy hxy
    obtain ⟨hxd, hxs⟩ := mem_stim_acc_diff_df hx
    obtain ⟨hyd, hys⟩ := mem_stim_acc_diff_df hy
    rw [← hxd, ← hxs, ← hyd, ← hys]
    exact hxy

/-! ### Concrete sample data for the witnesses -/

def sampleArgs : Args :=
  ⟨["alexnet"], ["transfer"], ["classify"], "alexnet_split.csv", "VGG16_split.csv",
   1 / 1000, "all.csv", "acc_diff.csv", "stim_acc_diff.csv", "net_acc_diff.csv",
   "acc_diff_by_stim.csv"⟩

def badArgs : Args :=
  ⟨["alexnet"], ["finetune"], ["classify"], "alexnet_split.csv", "VGG16_split.csv",
   1 / 1000, "all.csv", "acc_diff.csv", "stim_acc_diff.csv", "net_acc_diff.csv",
   "acc_diff_by_stim.csv"⟩

def emptyEnv : Env := ⟨true, [], fun _ _ _ _ _ _ => []⟩

def noRootEnv : Env := ⟨false, [], fun _ _ _ _ _ _ => []⟩

def sampleRows : List Row :=
  [⟨"alexnet", "A", 1, "transfer", 1⟩,
   ⟨"alexnet", "A", 1, "transfer", 0⟩,
   ⟨"alexnet", "A", 8, "transfer", 0⟩,
   ⟨"alexnet", "B", 1, "transfer", 1⟩,
   ⟨"alexnet", "B", 8, "transfer", 1⟩,
   ⟨"alexnet", "A", 1, "initialize", 0⟩]

def sampleRecs : List ARow :=
  [⟨"alexnet", "A", 1 / 2, 0, 1 / 2⟩, ⟨"alexnet", "B", 1, 1, 0⟩]

/-! ### Witnesses -/

/-- Witness for claim C1 at concrete data. -/
theorem df_acc_diff_values_witness :
    ∃ recs, accDiffRecords (df_transfer_acc_mn sampleRows) = .ok recs ∧
      ∀ g ∈ df_transfer_acc_mn sampleRows, ∃ a ∈ recs,
        a.net_name = g.net_name ∧ a.stimulus = g.stimulus ∧
        a.acc_diff = meanTransferAcc sampleRows g.net_name g.stimulus 1
                   - meanTransferAcc sampleRows g.net_name g.stimulus 8 :=
  df_acc_diff_values sampleRows (by decide)

/-- Witness for claim C2 at concrete data. -/
theorem df_transfer_acc_mn_group_mean_witness :
    (∃ r ∈ sampleRows, r.method = "transfer" ∧ r.net_name = "alexnet" ∧
        r.stimulus = "A" ∧ r.set_size = 1)
  ∧ ((df_transfer_acc_mn sampleRows).countP
        (fun g => decide (gkey g = ("alexnet", "A", 1))) = 1
    ∧ (∀ g ∈ df_transfer_acc_mn sampleRows, gkey g = ("alexnet", "A", 1) →
        g.accuracy = meanTransferAcc sampleRows "alexnet" "A" 1)
    ∧ df_transfer_acc_mn sampleRows =
        df_transfer_acc_mn (sampleRows.filter (fun r => decide (r.method ≠ "initialize")))) :=
  ⟨by decide, df_transfer_acc_mn_group_mean sampleRows "alexnet" "A" 1 (by decide)⟩

/-- Witness for claim C3 at concrete data. -/
theorem df_acc_diff_by_stim_layout_witness :
    accDiffRecords (df_transfer_acc_mn sampleRows) = .ok sampleRecs
  ∧ (∀ r ∈ sampleRecs, (df_acc_diff_by_stim sampleRecs).cell r.net_name r.stimulus
      = some r.acc_diff)
  ∧ (df_acc_diff_by_stim sampleRecs).columns
      = (stim_acc_diff_df sampleRecs).map StimRow.stimulus := by
  have h := df_acc_diff_by_stim_layout sampleRows sampleRecs (by decide)
  exact ⟨by decide, h.2.2.1, h.2.2.2.2.2.1⟩

/-- Witness for claim C5 at concrete data. -/
theorem main_results_gz_count_check_witness :
    modeFilter "classify" (globSorted emptyEnv "alexnet" "transfer") = .ok []
  ∧ (main emptyEnv sampleArgs).1 = .error (.valueError
      ("found more than one results.gz file: " ++ toString ([] : List String))) :=
  ⟨by decide,
   (main_results_gz_count_check emptyEnv sampleArgs [] [] [] [] [] []
      "alexnet" "transfer" "classify" [] rfl rfl rfl rfl (by decide) (by decide)
      (by decide) rfl).1⟩

/-- Witness for claim C6 at concrete data. -/
theorem main_invalid_method_check_witness :
    "finetune" ∉ METHODS
  ∧ (main emptyEnv badArgs).1 = .error (.valueError
      ("invalid method: " ++ "finetune" ++ ", must be one of: " ++ toString METHODS)) :=
  ⟨by decide,
   (main_invalid_method_check emptyEnv badArgs "finetune" (by decide)).1
     [] [] [] [] "alexnet" rfl rfl rfl rfl⟩

/-- Witness for claim C7 at concrete data. -/
theorem main_split_csv_selection_witness :
    csvPathForNet sampleArgs "CORnet_S" = .ok "alexnet_split.csv"
  ∧ csvPathForNet sampleArgs "VGG16" = .ok "VGG16_split.csv"
  ∧ csvPathForNet sampleArgs "resnet" = .error (.valueError
      ("no csv path defined for net_name: " ++ "resnet")) :=
  ⟨(main_split_csv_selection emptyEnv sampleArgs "CORnet_S").1 (Or.inr (by decide)),
   (main_split_csv_selection emptyEnv sampleArgs "VGG16").2.1 rfl,
   (main_split_csv_selection emptyEnv sampleArgs "resnet").2.2.1
     (by decide) (by decide) (by decide)⟩

/-- Witness for claim C8 at concrete data. -/
theorem main_writes_only_after_success_witness :
    (main noRootEnv sampleArgs).1 = .error (.notADirectoryError
      "directory specified as source_data_root not found")
  ∧ FileEvent.write "all.csv" ∉ (main noRootEnv sampleArgs).2 :=
  ⟨rfl, main_writes_only_after_success noRootEnv sampleArgs
    (.notADirectoryError "directory specified as source_data_root not found") rfl "all.csv"⟩

/-- Witness for claim C9 at concrete data. -/
theorem from_config_unknown_optimizer_and_momentum_witness :
    "alexnet" ∈ (["alexnet", "VGG16", "CORnet_Z"] : List String)
  ∧ "RMSprop" ∉ (["SGD", "Adam", "AdamW"] : List String)
  ∧ ∃ t, Trainer.from_config "alexnet" 2 "ce" "RMSprop" (1 / 1000) (9 / 10) = .ok t
      ∧ t.optimizers = [] :=
  ⟨by decide, by decide,
   (from_config_unknown_optimizer_and_momentum "alexnet" 2 "ce" "RMSprop"
      (1 / 1000) (9 / 10) (9 / 10)).1 (by decide) (by decide)⟩

/-- Witness for claim C10 at concrete data. -/
theorem from_config_unknown_net_unbound_local_witness :
    "CORnet_S" ∉ (["alexnet", "VGG16", "CORnet_Z"] : List String)
  ∧ Trainer.from_config "CORnet_S" 2 "ce" "SGD" (1 / 1000) (9 / 10)
      = .error (.unboundLocalError "model")
  ∧ "CORnet_S" ∈ NET_NAMES :=
  ⟨by decide, from_config_unknown_net_unbound_local "CORnet_S" 2 "ce" "SGD"
    (1 / 1000) (9 / 10) (by decide)⟩

end SearchNets
